import Mathlib

/-
Verification development for the 3d blueprint-to-scene repository.

The repository builds a 3D scene from a declarative blueprint: walls are
box solids placed between two 2D endpoints, door/window cavities are cut
out of them, doors get a hinge pivot that is animated toward a target
angle, and pointer clicks are resolved through the scene hierarchy to a
door pivot.  The definitions below are shallow embeddings of the source
functions (main.js, and the two unnamed sibling variants); JavaScript
floating point numbers are modelled by real numbers, with a dedicated
JSNum type where NaN propagation is the point at issue.
-/

namespace ThreeBP

noncomputable section

/-! ## JavaScript number model

JavaScript arithmetic never throws: a degenerate computation produces
NaN or an infinity.  `JSNum` models an IEEE double as a real number, NaN,
or a signed infinity (the model has no signed zero; none of the modelled
code distinguishes 0 from -0). -/

inductive JSNum where
  | num (x : ℝ)
  | nan
  | inf
  | ninf

/-- JavaScript subtraction `a - b` on JSNum. -/
def jsSub : JSNum → JSNum → JSNum
  | .num a, .num b => .num (a - b)
  | .num _, .nan => .nan
  | .num _, .inf => .ninf
  | .num _, .ninf => .inf
  | .nan, .num _ => .nan
  | .nan, .nan => .nan
  | .nan, .inf => .nan
  | .nan, .ninf => .nan
  | .inf, .num _ => .inf
  | .inf, .nan => .nan
  | .inf, .inf => .nan
  | .inf, .ninf => .inf
  | .ninf, .num _ => .ninf
  | .ninf, .nan => .nan
  | .ninf, .inf => .ninf
  | .ninf, .ninf => .nan

/-- JavaScript addition `a + b` on JSNum. -/
def jsAdd : JSNum → JSNum → JSNum
  | .num a, .num b => .num (a + b)
  | .num _, .nan => .nan
  | .num _, .inf => .inf
  | .num _, .ninf => .ninf
  | .nan, .num _ => .nan
  | .nan, .nan => .nan
  | .nan, .inf => .nan
  | .nan, .ninf => .nan
  | .inf, .num _ => .inf
  | .inf, .nan => .nan
  | .inf, .inf => .inf
  | .inf, .ninf => .nan
  | .ninf, .num _ => .ninf
  | .ninf, .nan => .nan
  | .ninf, .inf => .nan
  | .ninf, .ninf => .ninf

/-- JavaScript multiplication `a * b` on JSNum. -/
def jsMul : JSNum → JSNum → JSNum
  | .num a, .num b => .num (a * b)
  | .num _, .nan => .nan
  | .num a, .inf => if a = 0 then .nan else if 0 < a then .inf else .ninf
  | .num a, .ninf => if a = 0 then .nan else if 0 < a then .ninf else .inf
  | .nan, .num _ => .nan
  | .nan, .nan => .nan
  | .nan, .inf => .nan
  | .nan, .ninf => .nan
  | .inf, .num a => if a = 0 then .nan else if 0 < a then .inf else .ninf
  | .inf, .nan => .nan
  | .inf, .inf => .inf
  | .inf, .ninf => .ninf
  | .ninf, .num a => if a = 0 then .nan else if 0 < a then .ninf else .inf
  | .ninf, .nan => .nan
  | .ninf, .inf => .ninf
  | .ninf, .ninf => .inf

/-- JavaScript division `a / b` on JSNum (`0/0 = NaN`, `x/0 = ±Infinity`
for `x ≠ 0`; the model has no signed zero). -/
def jsDiv : JSNum → JSNum → JSNum
  | .num a, .num b =>
      if b = 0 then (if a = 0 then .nan else if 0 < a then .inf else .ninf)
      else .num (a / b)
  | .num _, .nan => .nan
  | .num _, .inf => .num 0
  | .num _, .ninf => .num 0
  | .nan, .num _ => .nan
  | .nan, .nan => .nan
  | .nan, .inf => .nan
  | .nan, .ninf => .nan
  | .inf, .num b => if 0 ≤ b then .inf else .ninf
  | .inf, .nan => .nan
  | .inf, .inf => .nan
  | .inf, .ninf => .nan
  | .ninf, .num b => if 0 ≤ b then .ninf else .inf
  | .ninf, .nan => .nan
  | .ninf, .inf => .nan
  | .ninf, .ninf => .nan

/-- JavaScript `Math.sqrt` on JSNum (negative argument gives NaN). -/
def jsSqrt : JSNum → JSNum
  | .num a => if a < 0 then .nan else .num (Real.sqrt a)
  | .nan => .nan
  | .inf => .inf
  | .ninf => .nan

/-! ## Geometry Math (main.js lines 64-69)

```js
function pointAlongWall(from, to, offset) {
  const dx = to[0] - from[0];
  const dz = to[1] - from[1];
  const length = Math.sqrt(dx * dx + dz * dz);
  return [from[0] + (dx / length) * offset, from[1] + (dz / length) * offset];
}
```
-/

/-- `pointAlongWall` over the JavaScript number model, exactly as the
source computes it: no branch on a zero-length segment exists, the
division simply happens. -/
def pointAlongWall (f t : JSNum × JSNum) (offset : JSNum) : JSNum × JSNum :=
  let dx := jsSub t.1 f.1
  let dz := jsSub t.2 f.2
  let len := jsSqrt (jsAdd (jsMul dx dx) (jsMul dz dz))
  (jsAdd f.1 (jsMul (jsDiv dx len) offset),
   jsAdd f.2 (jsMul (jsDiv dz len) offset))

/-- Real-number idealization of `pointAlongWall`, used by the wall
builder embedding below; it agrees with the JSNum version on every
non-degenerate segment (`pointAlongWall_num`). -/
def pointAlongWallR (f t : ℝ × ℝ) (offset : ℝ) : ℝ × ℝ :=
  let dx := t.1 - f.1
  let dz := t.2 - f.2
  let len := Real.sqrt (dx * dx + dz * dz)
  (f.1 + dx / len * offset, f.2 + dz / len * offset)

/-- The wall segment length `Math.sqrt(dx*dx + dz*dz)` computed by
`pointAlongWall` and `createWallWithOpenings`. -/
def wallLength (f t : ℝ × ℝ) : ℝ :=
  Real.sqrt ((t.1 - f.1) * (t.1 - f.1) + (t.2 - f.2) * (t.2 - f.2))

lemma wallLength_pos (f t : ℝ × ℝ) (h : f ≠ t) : 0 < wallLength f t := by
  rw [wallLength, Real.sqrt_pos]
  rcases lt_or_eq_of_le (mul_self_nonneg (t.1 - f.1)) with h1 | h1
  · nlinarith [mul_self_nonneg (t.2 - f.2)]
  rcases lt_or_eq_of_le (mul_self_nonneg (t.2 - f.2)) with h2 | h2
  · nlinarith
  exfalso
  apply h
  have e1 : t.1 - f.1 = 0 := by nlinarith
  have e2 : t.2 - f.2 = 0 := by nlinarith
  have : f.1 = t.1 := by linarith
  have : f.2 = t.2 := by linarith
  exact Prod.ext (by linarith) (by linarith)

/-- On a non-degenerate segment the JSNum `pointAlongWall` returns finite
values and agrees with the real idealization. -/
lemma pointAlongWall_num (f t : ℝ × ℝ) (offset : ℝ) (h : f ≠ t) :
    pointAlongWall (.num f.1, .num f.2) (.num t.1, .num t.2) (.num offset)
      = (.num (pointAlongWallR f t offset).1, .num (pointAlongWallR f t offset).2) := by
  have hL : 0 < wallLength f t := wallLength_pos f t h
  have hsq : ¬((t.1 - f.1) * (t.1 - f.1) + (t.2 - f.2) * (t.2 - f.2) < 0) := by
    nlinarith [mul_self_nonneg (t.1 - f.1), mul_self_nonneg (t.2 - f.2)]
  have hLne : wallLength f t ≠ 0 := ne_of_gt hL
  rw [wallLength] at hLne
  simp only [pointAlongWall, pointAlongWallR, jsSub, jsMul, jsAdd, jsSqrt, jsDiv,
    if_neg hsq, if_neg hLne]

/-- Whenever `from == to` — whatever the components are, finite or not —
`pointAlongWall` returns `[NaN, NaN]`: the length is `0` and `0/0` is NaN
(or a NaN operand propagates).  It does not raise. -/
lemma pointAlongWall_self_nan (p : JSNum × JSNum) (offset : JSNum) :
    pointAlongWall p p offset = (.nan, .nan) := by
  obtain ⟨a, b⟩ := p
  have sq0 : ¬((0:ℝ) < 0) := lt_irrefl 0
  cases a <;> cases b <;> cases offset <;>
    simp [pointAlongWall, jsSub, jsMul, jsAdd, jsSqrt, jsDiv, Real.sqrt_zero]

/-! ## Openings and the door pivot (main.js lines 72-172)

The main variant resolves each opening's world position with
`pointAlongWall(from, to, op.offset)`, resolves the sill as
`(op.sill !== undefined) ? op.sill : (op.type === 'window' ? 1 : 0)`,
centres the cavity at `(pos[0], sill + op.height / 2, pos[1])`, and for a
door creates a pivot group at the hinge point
`(pos[0] - cos(angle)*w/2, sill + h/2, pos[1] - sin(angle)*w/2)` with
`userData = {closedAngle = -angle, openAngle = -angle + swing,
targetAngle = -angle, isOpen = false}` where `swing` is `±π/2` by hinge
side.  `angle` is `Math.atan2(dz, dx)`, embedded as the argument of the
complex number `dx + dz*i`. -/

inductive OpeningType where
  | door
  | window
deriving DecidableEq

inductive HingeSide where
  | left
  | right
deriving DecidableEq

/-- An opening descriptor as the main variant consumes it:
`{type, width, height, offset, sill?, hinge?}`. -/
structure Opening where
  type : OpeningType
  width : ℝ
  height : ℝ
  offset : ℝ
  sill : Option ℝ := none
  hinge : Option HingeSide := none

/-- `Math.atan2(dz, dx)` for the segment direction (main.js line 83). -/
def wallAngle (f t : ℝ × ℝ) : ℝ :=
  Complex.arg ⟨t.1 - f.1, t.2 - f.2⟩

/-- Sill resolution (main.js line 97):
`(op.sill !== undefined) ? op.sill : (op.type === 'window' ? 1 : 0)`. -/
def resolveSill (op : Opening) : ℝ :=
  match op.sill with
  | some s => s
  | none => if op.type = .window then 1 else 0

/-- Centre of the cavity solid subtracted from the wall
(main.js line 102): `hole.position.set(pos[0], sill + op.height / 2, pos[1])`. -/
def holeCenter (f t : ℝ × ℝ) (op : Opening) : ℝ × ℝ × ℝ :=
  let pos := pointAlongWallR f t op.offset
  (pos.1, resolveSill op + op.height / 2, pos.2)

/-- A door pivot's `userData` (main.js lines 142-147). -/
structure DoorData where
  closedAngle : ℝ
  openAngle : ℝ
  targetAngle : ℝ
  isOpen : Bool

/-- A door pivot: the world position of the hinge, the pivot's current
rotation about the vertical axis, and its `userData`. -/
structure DoorPivot where
  position : ℝ × ℝ × ℝ
  rotationY : ℝ
  userData : DoorData

/-- The door pivot created for a door opening (main.js lines 109-154). -/
def createDoorPivot (f t : ℝ × ℝ) (op : Opening) : DoorPivot :=
  let pos := pointAlongWallR f t op.offset
  let angle := wallAngle f t
  let sill := resolveSill op
  let hingeWorldX := pos.1 - Real.cos angle * (op.width / 2)
  let hingeWorldZ := pos.2 - Real.sin angle * (op.width / 2)
  let hingeWorldY := sill + op.height / 2
  let baseRotation := -angle
  let swing := if op.hinge = some .right then -(Real.pi / 2) else Real.pi / 2
  { position := (hingeWorldX, hingeWorldY, hingeWorldZ)
    rotationY := baseRotation
    userData :=
      { closedAngle := baseRotation
        openAngle := baseRotation + swing
        targetAngle := baseRotation
        isOpen := false } }

/-! ## Wall rotation across the three variants (claim C8)

main.js line 85 sets `wall.rotation.y = -angle`; the first unnamed
variant (part_000 line 80) and the second (part_001 line 82) both set
`wall.rotation.y = Math.atan2(dz, dx)`. -/

/-- Wall rotation assigned by the main variant. -/
def wallRotationYMain (f t : ℝ × ℝ) : ℝ := -(wallAngle f t)

/-- Wall rotation assigned by the first unnamed variant (part_000). -/
def wallRotationYVar0 (f t : ℝ × ℝ) : ℝ := wallAngle f t

/-- Wall rotation assigned by the second unnamed variant (part_001). -/
def wallRotationYVar1 (f t : ℝ × ℝ) : ℝ := wallAngle f t

/-! ## The part_000 variant's cavity placement (claim C6)

In part_000 (and part_001) an opening reaches `createWallWithOpenings`
as `{at, width, height}` — no `type`, no `sill` — and the cavity is
centred at `(op.at[0], op.height / 2, op.at[1])` (part_000 line 88). -/

/-- An opening as the unnamed variants consume it. -/
structure OpeningVar0 where
  atPos : ℝ × ℝ
  width : ℝ
  height : ℝ

/-- Cavity centre in the part_000 variant (line 88):
`hole.position.set(op.at[0], op.height / 2, op.at[1])`. -/
def holeCenterVar0 (op : OpeningVar0) : ℝ × ℝ × ℝ :=
  (op.atPos.1, op.height / 2, op.atPos.2)

/-! ## Spec-side definitions used for refinement comparison -/

/-- Follows the spec's words (section 4.5) for the hinge point: "the
opening's world position offset by half the opening width along the
wall's negative direction (left-hinge convention) or positive direction
(right-hinge), at the opening's vertical center (sill + height/2)".
The wall's unit direction is `(dx, dz) / length`. -/
def specHingePosition (f t : ℝ × ℝ) (op : Opening) : ℝ × ℝ × ℝ :=
  let pos := pointAlongWallR f t op.offset
  let dx := t.1 - f.1
  let dz := t.2 - f.2
  let sgn : ℝ := if op.hinge = some .right then 1 else -1
  (pos.1 + sgn * (dx / wallLength f t) * (op.width / 2),
   resolveSill op + op.height / 2,
   pos.2 + sgn * (dz / wallLength f t) * (op.width / 2))

/-- Follows the spec's words (section 3) for the sill rule: the explicit
sill when given, "default: 0 for doors, a positive constant for windows"
— the constant the main variant realizes is 1. -/
def specSill (sill : Option ℝ) (ty : OpeningType) : ℝ :=
  match sill with
  | some s => s
  | none => if ty = .window then 1 else 0

/-! ## Door kinematics (main.js lines 48-61 and 236-243)

The animation loop replaces each pivot's rotation by
`THREE.MathUtils.lerp(cur, target, 0.18)`, where three.js defines
`lerp(x, y, t) = (1 - t) * x + t * y`.  The click handler toggles
`userData.isOpen` and reassigns `userData.targetAngle`. -/

/-- `THREE.MathUtils.lerp`. -/
def lerp (x y t : ℝ) : ℝ := (1 - t) * x + t * y

/-- One animation-tick update of one door pivot (main.js lines 52-57):
`dp.rotation.y = THREE.MathUtils.lerp(dp.rotation.y, dp.userData.targetAngle, 0.18)`. -/
def tickPivot (dp : DoorPivot) : DoorPivot :=
  { dp with rotationY := lerp dp.rotationY dp.userData.targetAngle 0.18 }

/-- The toggle applied by the click handler (main.js lines 240-241):
`isOpen = !isOpen; targetAngle = isOpen ? openAngle : closedAngle`. -/
def toggleUserData (d : DoorData) : DoorData :=
  let o := !d.isOpen
  { d with
    isOpen := o
    targetAngle := if o then d.openAngle else d.closedAngle }

/-- The two events that can reach one door pivot at runtime: a click
toggle and an animation tick. -/
inductive PEvent where
  | toggle
  | tick

/-- Effect of one event on one pivot. -/
def pivotStep : PEvent → DoorPivot → DoorPivot
  | .toggle, dp => { dp with userData := toggleUserData dp.userData }
  | .tick, dp => tickPivot dp

/-- A pivot after a sequence of toggles and ticks. -/
def applyEvents (evs : List PEvent) (dp : DoorPivot) : DoorPivot :=
  evs.foldl (fun s e => pivotStep e s) dp

/-- `n` animation ticks. -/
def tickN (n : ℕ) (dp : DoorPivot) : DoorPivot := tickPivot^[n] dp

/-- The current angle of a door pivot after one toggle from its created
state and `n` animation ticks. -/
def doorAngleSeq (f t : ℝ × ℝ) (op : Opening) (n : ℕ) : ℝ :=
  (tickN n (pivotStep .toggle (createDoorPivot f t op))).rotationY

/-- The created pivot's `closedAngle`. -/
def doorClosedAngle (f t : ℝ × ℝ) (op : Opening) : ℝ :=
  (createDoorPivot f t op).userData.closedAngle

/-- The created pivot's `openAngle`. -/
def doorOpenAngle (f t : ℝ × ℝ) (op : Opening) : ℝ :=
  (createDoorPivot f t op).userData.openAngle

/-! ## The scene and one frame of `animate` (main.js lines 48-61) -/

/-- The scene state touched by `animate`: the finished wall solids (an
arbitrary type — `animate` never looks inside one) and the tracked door
pivots. -/
structure SceneState (W : Type) where
  walls : List W
  doorPivots : List DoorPivot

/-- One pass of the `for (const dp of doorPivots)` loop in `animate`. -/
def animateTick {W : Type} (s : SceneState W) : SceneState W :=
  { s with doorPivots := s.doorPivots.map tickPivot }

/-! ## Click handling (main.js lines 213-244)

```js
const intersects = raycaster.intersectObjects(scene.children, true);
if (intersects.length === 0) return;
let obj = intersects[0].object;
while (obj && obj.parent) {
  if (obj.parent.name === 'doorPivot') { obj = obj.parent; break; }
  obj = obj.parent;
}
if (obj && obj.name === 'doorPivot') { ...toggle obj.userData... }
```

A scene object is modelled by its name, an identity (the index of its
`userData` in the registry map), and its chain of ancestors. -/

inductive Obj where
  | root (name : String) (id : ℕ)
  | child (name : String) (id : ℕ) (parent : Obj)

def Obj.name : Obj → String
  | .root n _ => n
  | .child n _ _ => n

def Obj.id : Obj → ℕ
  | .root _ i => i
  | .child _ i _ => i

/-- The `while (obj && obj.parent)` ancestor walk of the click handler. -/
def climbToPivot : Obj → Obj
  | .root n i => .root n i
  | .child _ _ p => if Obj.name p = "doorPivot" then p else climbToPivot p

/-- The click handler's effect on the door registry: `intersects` is the
ray's hit list (nearest first), `st` maps a pivot identity to its
`userData`. -/
def onClick (intersects : List Obj) (st : ℕ → DoorData) : ℕ → DoorData :=
  match intersects with
  | [] => st
  | o :: _ =>
    let dp := climbToPivot o
    if dp.name = "doorPivot" then
      fun j => if j = dp.id then toggleUserData (st j) else st j
    else st

/-! ## The part_000 variant's click handler (lines 137-153)

That variant has no pivots: it raycasts against `clickableObjects` and,
on a hit, rotates a door mesh in place or turns a non-door red.  Only
the no-hit path matters to claim C5: it returns before touching any
state. -/

/-- A clickable mesh of the part_000 variant. -/
structure Clickable where
  ctype : Option String
  isOpen : Bool
  rotationY : ℝ
  red : Bool

/-- part_000's `onClick` effect on the clickable registry (`intersects`
is the list of hit identities, nearest first). -/
def onClickVar0 (intersects : List ℕ) (objs : ℕ → Clickable) : ℕ → Clickable :=
  match intersects with
  | [] => objs
  | i :: _ =>
    fun j =>
      if j = i then
        let o := objs i
        if o.ctype = some "door" then
          { o with
            rotationY := o.rotationY + (if o.isOpen then -(Real.pi / 2) else Real.pi / 2)
            isOpen := !o.isOpen }
        else { o with red := true }
      else objs j

/-! ## Shared concrete inputs for witnesses and counterexamples -/

/-- A registry entry with `isOpen = false` and distinct angles. -/
def dEx : DoorData :=
  { closedAngle := 0, openAngle := 1, targetAngle := 0, isOpen := false }

/-- A registry holding `dEx` at every identity. -/
def stEx : ℕ → DoorData := fun _ => dEx

/-- A plain wall mesh at the scene root: no ancestor is a door pivot. -/
def wallObjEx : Obj := .root "wall" 3

/-- A door pivot object at the scene root. -/
def pivEx : Obj := .root "doorPivot" 0

/-- A door panel mesh whose parent is `pivEx`. -/
def panelEx : Obj := .child "panel" 7 pivEx

def pAEx : ℝ × ℝ := (0, 0)
def pBEx : ℝ × ℝ := (3, 4)
def pCEx : ℝ × ℝ := (0, 1)
def pDEx : ℝ × ℝ := (4, 0)

/-- A default (left-hinge) door opening: width 1, height 2, offset 2. -/
def opLEx : Opening := { type := .door, width := 1, height := 2, offset := 2 }

/-- The same door opening with `hinge: "right"`. -/
def opREx : Opening :=
  { type := .door, width := 1, height := 2, offset := 2, hinge := some .right }

/-- A window descriptor as the part_000 variant sees it: `{at, width, height}`,
no sill and no type survive the translation into an opening. -/
def w0Ex : OpeningVar0 := { atPos := (2, 0), width := 1, height := 2 }

/-! ## Claim C2 -/

/-- C2, corrected: at `from == to`, `pointAlongWall` does not raise — the
source has no throw and no `InvalidGeometryError` anywhere; the length is
0, `0/0` evaluates to NaN and propagates, so the call returns the value
`[NaN, NaN]`.  Shown here at the concrete input `from = to = [1, 2]`,
`offset = 1/2`. -/
theorem C2_counterexample :
    pointAlongWall (.num 1, .num 2) (.num 1, .num 2) (.num (1 / 2)) = (.nan, .nan) :=
  pointAlongWall_self_nan (.num 1, .num 2) (.num (1 / 2))

/-- C2, amended: for every pair of equal endpoints and every offset,
`pointAlongWall(p, p, offset)` returns `[NaN, NaN]` instead of raising
`InvalidGeometryError`. -/
theorem C2_amended (p : JSNum × JSNum) (offset : JSNum) :
    pointAlongWall p p offset = (.nan, .nan) :=
  pointAlongWall_self_nan p offset

/-! ## Claim C5 -/

/-- C5: the click handler never errors and is a no-op on the door
registry both when the ray hits nothing (`intersects.length === 0`) and
when the nearest hit's ancestor walk finds no object named `doorPivot`;
likewise the part_000 variant's handler returns untouched state on no
hit. -/
theorem C5_click_noop (st : ℕ → DoorData) (o : Obj) (rest : List Obj)
    (h : (climbToPivot o).name ≠ "doorPivot") :
    onClick [] st = st ∧
    onClick (o :: rest) st = st ∧
    ∀ objs : ℕ → Clickable, onClickVar0 [] objs = objs := by
  refine ⟨rfl, ?_, fun _ => rfl⟩
  simp only [onClick]
  exact if_neg h

/-- C5 witness: clicking with an empty hit list, or with a plain wall
mesh as the nearest hit, leaves the registry `stEx` unchanged. -/
theorem C5_witness :
    (climbToPivot wallObjEx).name ≠ "doorPivot" ∧
    (onClick [] stEx = stEx ∧
     onClick [wallObjEx] stEx = stEx ∧
     ∀ objs : ℕ → Clickable, onClickVar0 [] objs = objs) :=
  have h : (climbToPivot wallObjEx).name ≠ "doorPivot" := by decide
  ⟨h, C5_click_noop stEx wallObjEx [] h⟩

/-! ## Claim C4 -/

/-- C4: a nearest hit on a door panel (a child of a pivot named
`doorPivot`) resolves to the pivot, not the panel; the click toggles that
pivot's `userData` (first toggle: `isOpen = true`,
`targetAngle = openAngle`), and a second toggle on the same pivot
restores `targetAngle = closedAngle` and `isOpen = false`. -/
theorem C4_panel_click_toggles_pivot (pname : String) (pid : ℕ) (piv : Obj)
    (st : ℕ → DoorData) (hname : piv.name = "doorPivot")
    (hclosed : (st piv.id).isOpen = false) :
    climbToPivot (.child pname pid piv) = piv ∧
    onClick [.child pname pid piv] st piv.id = toggleUserData (st piv.id) ∧
    (toggleUserData (st piv.id)).isOpen = true ∧
    (toggleUserData (st piv.id)).targetAngle = (st piv.id).openAngle ∧
    onClick [.child pname pid piv] (onClick [.child pname pid piv] st) piv.id
      = toggleUserData (toggleUserData (st piv.id)) ∧
    (toggleUserData (toggleUserData (st piv.id))).targetAngle = (st piv.id).closedAngle ∧
    (toggleUserData (toggleUserData (st piv.id))).isOpen = false := by
  have hclimb : climbToPivot (.child pname pid piv) = piv := by
    simp only [climbToPivot]
    exact if_pos hname
  have honce : ∀ (s : ℕ → DoorData) (j : ℕ),
      onClick [Obj.child pname pid piv] s j
        = if j = piv.id then toggleUserData (s j) else s j := by
    intro s j
    simp [onClick, hclimb, hname]
  refine ⟨hclimb, ?_, ?_, ?_, ?_, ?_, ?_⟩
  · rw [honce st piv.id, if_pos rfl]
  · simp [toggleUserData, hclosed]
  · simp [toggleUserData, hclosed]
  · rw [honce _ piv.id, if_pos rfl, honce st piv.id, if_pos rfl]
  · simp [toggleUserData, hclosed]
  · simp [toggleUserData, hclosed]

/-- C4 witness: the panel `panelEx` (child of the pivot `pivEx`) at the
registry `stEx`, where the pivot starts closed. -/
theorem C4_witness :
    pivEx.name = "doorPivot" ∧ (stEx pivEx.id).isOpen = false ∧
    (climbToPivot (.child "panel" 7 pivEx) = pivEx ∧
     onClick [.child "panel" 7 pivEx] stEx pivEx.id = toggleUserData (stEx pivEx.id) ∧
     (toggleUserData (stEx pivEx.id)).isOpen = true ∧
     (toggleUserData (stEx pivEx.id)).targetAngle = (stEx pivEx.id).openAngle ∧
     onClick [.child "panel" 7 pivEx] (onClick [.child "panel" 7 pivEx] stEx) pivEx.id
       = toggleUserData (toggleUserData (stEx pivEx.id)) ∧
     (toggleUserData (toggleUserData (stEx pivEx.id))).targetAngle
       = (stEx pivEx.id).closedAngle ∧
     (toggleUserData (toggleUserData (stEx pivEx.id))).isOpen = false) :=
  ⟨rfl, rfl, C4_panel_click_toggles_pivot "panel" 7 pivEx stEx rfl rfl⟩

/-! ## Claim C10 -/

/-- C10: one pass of the animation loop maps each tracked pivot through
`tickPivot`, which changes only `rotation.y` (to the 18% lerp toward
`targetAngle`) and leaves `userData` — hence `closedAngle`, `openAngle`,
`targetAngle`, `isOpen` — and the hinge position unchanged; the wall
solids are not touched at all. -/
theorem C10_tick_frame_effect (W : Type) (s : SceneState W) :
    (animateTick s).walls = s.walls ∧
    (animateTick s).doorPivots = s.doorPivots.map tickPivot ∧
    ∀ dp : DoorPivot,
      (tickPivot dp).userData = dp.userData ∧
      (tickPivot dp).position = dp.position ∧
      (tickPivot dp).rotationY = lerp dp.rotationY dp.userData.targetAngle 0.18 :=
  ⟨rfl, rfl, fun _ => ⟨rfl, rfl, rfl⟩⟩

/-! ## Claim C9 -/

/-- The toggle/tick state machine preserves `closedAngle` and
`openAngle` and keeps `targetAngle` determined by `isOpen`. -/
lemma applyEvents_userData_inv (c o : ℝ) :
    ∀ (evs : List PEvent) (dp : DoorPivot),
      dp.userData.closedAngle = c → dp.userData.openAngle = o →
      dp.userData.targetAngle = (if dp.userData.isOpen then o else c) →
      (applyEvents evs dp).userData.closedAngle = c ∧
      (applyEvents evs dp).userData.openAngle = o ∧
      (applyEvents evs dp).userData.targetAngle
        = (if (applyEvents evs dp).userData.isOpen then o else c)
  | [], _, h1, h2, h3 => ⟨h1, h2, h3⟩
  | e :: evs, dp, h1, h2, h3 => by
    have hstep : applyEvents (e :: evs) dp = applyEvents evs (pivotStep e dp) := rfl
    rw [hstep]
    cases e with
    | toggle =>
      refine applyEvents_userData_inv c o evs _ h1 h2 ?_
      show (toggleUserData dp.userData).targetAngle
        = if (toggleUserData dp.userData).isOpen then o else c
      simp only [toggleUserData]
      rcases Bool.eq_false_or_eq_true (!dp.userData.isOpen) with hb | hb <;>
        simp [hb, h1, h2]
    | tick =>
      exact applyEvents_userData_inv c o evs _ h1 h2 h3

/-- C9: after creation and after any sequence of click toggles and
animation ticks, a door pivot's `closedAngle` and `openAngle` still hold
their creation values, `targetAngle` equals
`isOpen ? openAngle : closedAngle`, and in particular `targetAngle` is
always one of `{closedAngle, openAngle}`. -/
theorem C9_target_invariant (f t : ℝ × ℝ) (op : Opening) (evs : List PEvent) :
    (applyEvents evs (createDoorPivot f t op)).userData.closedAngle
      = doorClosedAngle f t op ∧
    (applyEvents evs (createDoorPivot f t op)).userData.openAngle
      = doorOpenAngle f t op ∧
    (applyEvents evs (createDoorPivot f t op)).userData.targetAngle
      = (if (applyEvents evs (createDoorPivot f t op)).userData.isOpen
          then doorOpenAngle f t op else doorClosedAngle f t op) ∧
    ((applyEvents evs (createDoorPivot f t op)).userData.targetAngle
        = doorClosedAngle f t op ∨
     (applyEvents evs (createDoorPivot f t op)).userData.targetAngle
        = doorOpenAngle f t op) := by
  have h := applyEvents_userData_inv (doorClosedAngle f t op) (doorOpenAngle f t op)
    evs (createDoorPivot f t op) rfl rfl (by rfl)
  refine ⟨h.1, h.2.1, h.2.2, ?_⟩
  rw [h.2.2]
  cases (applyEvents evs (createDoorPivot f t op)).userData.isOpen <;> simp

/-! ## Claim C8 -/

/-- C8: the rotation-sign convention really differs across the variants:
on every wall segment with `to[1] != from[1]` the main variant's wall
rotation `-atan2(dz, dx)` differs from the `+atan2(dz, dx)` assigned by
both unnamed variants (which agree with each other on every segment). -/
theorem C8_rotation_sign_mismatch (f t : ℝ × ℝ) (h : t.2 ≠ f.2) :
    wallRotationYMain f t ≠ wallRotationYVar0 f t ∧
    wallRotationYVar0 f t = wallRotationYVar1 f t := by
  refine ⟨?_, rfl⟩
  have harg : wallAngle f t ≠ 0 := by
    rw [wallAngle]
    intro h0
    rw [Complex.arg_eq_zero_iff] at h0
    have him : t.2 - f.2 = 0 := h0.2
    exact h (by linarith)
  intro he
  rw [wallRotationYMain, wallRotationYVar0] at he
  exact harg (by linarith)

/-- C8 witness: the vertical segment from `(0,0)` to `(0,1)`. -/
theorem C8_witness :
    pCEx.2 ≠ pAEx.2 ∧
    (wallRotationYMain pAEx pCEx ≠ wallRotationYVar0 pAEx pCEx ∧
     wallRotationYVar0 pAEx pCEx = wallRotationYVar1 pAEx pCEx) :=
  have h : pCEx.2 ≠ pAEx.2 := by norm_num [pAEx, pCEx]
  ⟨h, C8_rotation_sign_mismatch pAEx pCEx h⟩

/-! ## Claim C6 -/

/-- C6, corrected: the claim holds in the main variant, but not for every
`createWallWithOpenings` of the repository: in part_000 a window opening
(height 2, reaching the wall builder as `{at, width, height}` with no
sill and no type) gets its cavity centred at `height/2 = 1`, not at the
spec's `sill + height/2 = 1 + 1 = 2`. -/
theorem C6_counterexample :
    (holeCenterVar0 w0Ex).2.1 ≠ specSill none .window + w0Ex.height / 2 := by
  norm_num [holeCenterVar0, specSill, w0Ex]

/-- C6, amended: in the main variant the cavity's vertical centre is
`sill + height/2` where the sill is the explicit value when given and
otherwise 0 for doors and 1 for windows (the spec's rule, `specSill`);
in the part_000 variant the cavity centre is always `height/2` — the
openings it processes carry no sill and no type. -/
theorem C6_cavity_center :
    (∀ (f t : ℝ × ℝ) (op : Opening),
        (holeCenter f t op).2.1 = specSill op.sill op.type + op.height / 2) ∧
    (∀ (s : ℝ) (ty : OpeningType), specSill (some s) ty = s) ∧
    specSill none .door = 0 ∧
    specSill none .window = 1 ∧
    (∀ op : OpeningVar0, (holeCenterVar0 op).2.1 = op.height / 2) := by
  refine ⟨?_, fun s ty => rfl, rfl, rfl, fun op => rfl⟩
  intro f t op
  rcases hs : op.sill with _ | s <;>
    simp [holeCenter, resolveSill, specSill, hs]

/-! ## Claim C7 -/

/-- A point lies on the closed segment from `f` to `t`. -/
def onSeg (f t p : ℝ × ℝ) : Prop :=
  ∃ s : ℝ, 0 ≤ s ∧ s ≤ 1 ∧ p = (f.1 + s * (t.1 - f.1), f.2 + s * (t.2 - f.2))

/-- C7: on a non-degenerate segment, for every offset in
`[0, length]`, `pointAlongWall` returns a finite point that lies exactly
on the segment; at offset `0` it returns `from` and at offset `length`
it returns `to`. -/
theorem C7_point_on_segment (f t : ℝ × ℝ) (offset : ℝ) (hft : f ≠ t)
    (h0 : 0 ≤ offset) (hL : offset ≤ wallLength f t) :
    pointAlongWall (.num f.1, .num f.2) (.num t.1, .num t.2) (.num offset)
      = (.num (pointAlongWallR f t offset).1, .num (pointAlongWallR f t offset).2) ∧
    onSeg f t (pointAlongWallR f t offset) ∧
    pointAlongWallR f t 0 = f ∧
    pointAlongWallR f t (wallLength f t) = t := by
  have hLpos := wallLength_pos f t hft
  have hLne : wallLength f t ≠ 0 := ne_of_gt hLpos
  refine ⟨pointAlongWall_num f t offset hft, ?_, ?_, ?_⟩
  · refine ⟨offset / wallLength f t, div_nonneg h0 hLpos.le,
      (div_le_one hLpos).mpr hL, ?_⟩
    rw [Prod.ext_iff]
    constructor
    · show f.1 + (t.1 - f.1) / wallLength f t * offset
        = f.1 + offset / wallLength f t * (t.1 - f.1)
      ring
    · show f.2 + (t.2 - f.2) / wallLength f t * offset
        = f.2 + offset / wallLength f t * (t.2 - f.2)
      ring
  · rw [Prod.ext_iff]
    constructor
    · show f.1 + (t.1 - f.1) / wallLength f t * 0 = f.1
      ring
    · show f.2 + (t.2 - f.2) / wallLength f t * 0 = f.2
      ring
  · rw [Prod.ext_iff]
    constructor
    · show f.1 + (t.1 - f.1) / wallLength f t * wallLength f t = t.1
      rw [div_mul_cancel₀ _ hLne]
      ring
    · show f.2 + (t.2 - f.2) / wallLength f t * wallLength f t = t.2
      rw [div_mul_cancel₀ _ hLne]
      ring

/-- The 3-4-5 segment used by the C7 witness has length 5. -/
lemma wallLength_pA_pB : wallLength pAEx pBEx = 5 := by
  rw [wallLength]
  norm_num [pAEx, pBEx]
  rw [show (25 : ℝ) = 5 ^ 2 by norm_num]
  exact Real.sqrt_sq (by norm_num)

/-- C7 witness: the segment from `(0,0)` to `(3,4)` with offset 5 (its
full length). -/
theorem C7_witness :
    pAEx ≠ pBEx ∧ (0 : ℝ) ≤ 5 ∧ (5 : ℝ) ≤ wallLength pAEx pBEx ∧
    (pointAlongWall (.num pAEx.1, .num pAEx.2) (.num pBEx.1, .num pBEx.2) (.num 5)
        = (.num (pointAlongWallR pAEx pBEx 5).1, .num (pointAlongWallR pAEx pBEx 5).2) ∧
     onSeg pAEx pBEx (pointAlongWallR pAEx pBEx 5) ∧
     pointAlongWallR pAEx pBEx 0 = pAEx ∧
     pointAlongWallR pAEx pBEx (wallLength pAEx pBEx) = pBEx) :=
  have h1 : pAEx ≠ pBEx := by norm_num [pAEx, pBEx, Prod.ext_iff]
  have h3 : (5 : ℝ) ≤ wallLength pAEx pBEx := by rw [wallLength_pA_pB]
  ⟨h1, by norm_num, h3, C7_point_on_segment pAEx pBEx 5 h1 (by norm_num) h3⟩

/-! ## Claim C1 -/

lemma segVec_ne_zero (f t : ℝ × ℝ) (h : f ≠ t) :
    (⟨t.1 - f.1, t.2 - f.2⟩ : ℂ) ≠ 0 := by
  intro h0
  apply h
  have h1 : t.1 - f.1 = 0 := by
    have := congrArg Complex.re h0
    simpa using this
  have h2 : t.2 - f.2 = 0 := by
    have := congrArg Complex.im h0
    simpa using this
  exact Prod.ext (by linarith) (by linarith)

lemma abs_segVec (f t : ℝ × ℝ) :
    Complex.abs ⟨t.1 - f.1, t.2 - f.2⟩ = wallLength f t := by
  rw [Complex.abs_apply, Complex.normSq_mk, wallLength]

/-- `cos(atan2(dz, dx)) = dx / length`: the cosine of the wall angle is
the first component of the wall's unit direction. -/
lemma cos_wallAngle (f t : ℝ × ℝ) (h : f ≠ t) :
    Real.cos (wallAngle f t) = (t.1 - f.1) / wallLength f t := by
  rw [wallAngle, Complex.cos_arg (segVec_ne_zero f t h), abs_segVec]

/-- `sin(atan2(dz, dx)) = dz / length`. -/
lemma sin_wallAngle (f t : ℝ × ℝ) :
    Real.sin (wallAngle f t) = (t.2 - f.2) / wallLength f t := by
  rw [wallAngle, Complex.sin_arg, abs_segVec]

/-- C1, amended: the door pivot is placed at the opening's world
position offset by half the opening width along the wall's *negative*
unit direction regardless of the hinge side — the hinge side only flips
the swing sign, never the pivot position — at vertical coordinate
`sill + height/2`. -/
theorem C1_hinge_position (f t : ℝ × ℝ) (op : Opening) (h : f ≠ t) :
    (createDoorPivot f t op).position
      = ((pointAlongWallR f t op.offset).1
           - (t.1 - f.1) / wallLength f t * (op.width / 2),
         resolveSill op + op.height / 2,
         (pointAlongWallR f t op.offset).2
           - (t.2 - f.2) / wallLength f t * (op.width / 2)) ∧
    ∀ hs : Option HingeSide,
      (createDoorPivot f t { op with hinge := hs }).position
        = (createDoorPivot f t op).position := by
  constructor
  · show ((pointAlongWallR f t op.offset).1
           - Real.cos (wallAngle f t) * (op.width / 2),
         resolveSill op + op.height / 2,
         (pointAlongWallR f t op.offset).2
           - Real.sin (wallAngle f t) * (op.width / 2)) = _
    rw [cos_wallAngle f t h, sin_wallAngle f t]
  · intro hs
    rfl

/-- C1, counterexample to the claim as stated: on the wall from `(0,0)`
to `(4,0)` with a right-hinged door of width 1 at offset 2, the code
places the pivot at x = 1.5 (still offset along the negative wall
direction), while the claimed placement (`specHingePosition`, following
the spec's right-hinge rule) is x = 2.5. -/
theorem C1_counterexample :
    (createDoorPivot pAEx pDEx opREx).position ≠ specHingePosition pAEx pDEx opREx := by
  have harg : wallAngle pAEx pDEx = 0 := by
    rw [wallAngle]
    rw [show (⟨pDEx.1 - pAEx.1, pDEx.2 - pAEx.2⟩ : ℂ) = ((4 : ℝ) : ℂ) from by
      apply Complex.ext <;> simp [pAEx, pDEx]]
    exact Complex.arg_ofReal_of_nonneg (by norm_num)
  have hlen : wallLength pAEx pDEx = 4 := by
    rw [wallLength]
    norm_num [pAEx, pDEx]
    rw [show (16 : ℝ) = 4 ^ 2 by norm_num]
    exact Real.sqrt_sq (by norm_num)
  intro he
  have h1 := congrArg (fun q : ℝ × ℝ × ℝ => q.1) he
  simp only [createDoorPivot, specHingePosition, opREx] at h1
  rw [harg, hlen] at h1
  simp only [Real.cos_zero, pAEx, pDEx] at h1
  norm_num at h1
  linarith

/-- C1 witness for the amended statement: the wall from `(0,0)` to
`(4,0)` with the default (left-hinge) door opening. -/
theorem C1_witness :
    pAEx ≠ pDEx ∧
    ((createDoorPivot pAEx pDEx opLEx).position
        = ((pointAlongWallR pAEx pDEx opLEx.offset).1
             - (pDEx.1 - pAEx.1) / wallLength pAEx pDEx * (opLEx.width / 2),
           resolveSill opLEx + opLEx.height / 2,
           (pointAlongWallR pAEx pDEx opLEx.offset).2
             - (pDEx.2 - pAEx.2) / wallLength pAEx pDEx * (opLEx.width / 2)) ∧
     ∀ hs : Option HingeSide,
       (createDoorPivot pAEx pDEx { opLEx with hinge := hs }).position
         = (createDoorPivot pAEx pDEx opLEx).position) :=
  have h : pAEx ≠ pDEx := by norm_num [pAEx, pDEx, Prod.ext_iff]
  ⟨h, C1_hinge_position pAEx pDEx opLEx h⟩

/-! ## Claim C3 -/

/-- Animation ticks never touch a pivot's `userData`. -/
lemma tickN_userData (n : ℕ) (dp : DoorPivot) :
    (tickN n dp).userData = dp.userData := by
  induction n with
  | zero => rfl
  | succ k ih =>
    rw [tickN, Function.iterate_succ_apply']
    exact ih

/-- The rotation recurrence of the animation loop. -/
lemma tickN_rotation_succ (n : ℕ) (dp : DoorPivot) :
    (tickN (n + 1) dp).rotationY
      = lerp (tickN n dp).rotationY dp.userData.targetAngle 0.18 := by
  rw [tickN, Function.iterate_succ_apply']
  show lerp (tickPivot^[n] dp).rotationY (tickPivot^[n] dp).userData.targetAngle 0.18 = _
  rw [show (tickPivot^[n] dp).userData = dp.userData from tickN_userData n dp]
  rfl

/-- C3: a freshly created pivot sits at `closedAngle`; one toggle sets
`targetAngle = openAngle` and every later tick keeps that target; each
tick replaces the angle by `c + 0.18*(openAngle - c)`, so the remaining
distance shrinks by the factor 0.82 per tick — the angle moves strictly
monotonically toward `openAngle`, never overshoots it, never reaches it
in finitely many ticks, and gets within every tolerance `e > 0` after
sufficiently many ticks. -/
theorem C3_tick_convergence (f t : ℝ × ℝ) (op : Opening) :
    doorAngleSeq f t op 0 = doorClosedAngle f t op ∧
    (pivotStep .toggle (createDoorPivot f t op)).userData.targetAngle
      = doorOpenAngle f t op ∧
    (∀ n, (tickN n (pivotStep .toggle (createDoorPivot f t op))).userData.targetAngle
        = doorOpenAngle f t op) ∧
    (∀ n, doorAngleSeq f t op (n + 1)
        = doorAngleSeq f t op n
            + 0.18 * (doorOpenAngle f t op - doorAngleSeq f t op n)) ∧
    (∀ n, doorOpenAngle f t op - doorAngleSeq f t op n
        = 0.82 ^ n * (doorOpenAngle f t op - doorClosedAngle f t op)) ∧
    (∀ n, |doorOpenAngle f t op - doorAngleSeq f t op (n + 1)|
        < |doorOpenAngle f t op - doorAngleSeq f t op n|) ∧
    (∀ n, doorClosedAngle f t op < doorOpenAngle f t op →
        doorAngleSeq f t op n < doorAngleSeq f t op (n + 1) ∧
        doorAngleSeq f t op n < doorOpenAngle f t op) ∧
    (∀ n, doorOpenAngle f t op < doorClosedAngle f t op →
        doorAngleSeq f t op (n + 1) < doorAngleSeq f t op n ∧
        doorOpenAngle f t op < doorAngleSeq f t op n) ∧
    (∀ n, doorAngleSeq f t op n ≠ doorOpenAngle f t op) ∧
    (∀ e : ℝ, 0 < e → ∃ N, ∀ n, N ≤ n →
        |doorOpenAngle f t op - doorAngleSeq f t op n| < e) := by
  have hC : doorAngleSeq f t op 0 = doorClosedAngle f t op := rfl
  have htar : (pivotStep .toggle (createDoorPivot f t op)).userData.targetAngle
      = doorOpenAngle f t op := rfl
  have htarN : ∀ n,
      (tickN n (pivotStep .toggle (createDoorPivot f t op))).userData.targetAngle
        = doorOpenAngle f t op := by
    intro n
    rw [tickN_userData]
    exact htar
  have hrec : ∀ n, doorAngleSeq f t op (n + 1)
      = doorAngleSeq f t op n + 0.18 * (doorOpenAngle f t op - doorAngleSeq f t op n) := by
    intro n
    simp only [doorAngleSeq]
    rw [tickN_rotation_succ n (pivotStep .toggle (createDoorPivot f t op)), htar]
    simp only [lerp]
    ring
  have hOC : doorOpenAngle f t op - doorClosedAngle f t op
      = (if op.hinge = some HingeSide.right then -(Real.pi / 2) else Real.pi / 2) := by
    show (-(wallAngle f t)
        + (if op.hinge = some HingeSide.right then -(Real.pi / 2) else Real.pi / 2))
        - -(wallAngle f t) = _
    ring
  have hs0 : doorOpenAngle f t op - doorClosedAngle f t op ≠ 0 := by
    rw [hOC]
    have hpi : Real.pi / 2 ≠ 0 := ne_of_gt (by positivity)
    split_ifs
    · exact neg_ne_zero.mpr hpi
    · exact hpi
  have hpow : ∀ n, doorOpenAngle f t op - doorAngleSeq f t op n
      = 0.82 ^ n * (doorOpenAngle f t op - doorClosedAngle f t op) := by
    intro n
    induction n with
    | zero => rw [hC, pow_zero, one_mul]
    | succ k ih =>
      rw [hrec k, pow_succ]
      linear_combination (0.82 : ℝ) * ih
  have hAneq : ∀ n, doorAngleSeq f t op n ≠ doorOpenAngle f t op := by
    intro n hn
    apply hs0
    have hz := hpow n
    rw [hn, sub_self] at hz
    rcases mul_eq_zero.mp hz.symm with hcase | hcase
    · exact absurd hcase (pow_ne_zero n (by norm_num))
    · exact hcase
  have hdec : ∀ n, |doorOpenAngle f t op - doorAngleSeq f t op (n + 1)|
      < |doorOpenAngle f t op - doorAngleSeq f t op n| := by
    intro n
    have hk : doorOpenAngle f t op - doorAngleSeq f t op (n + 1)
        = 0.82 * (doorOpenAngle f t op - doorAngleSeq f t op n) := by
      rw [hpow (n + 1), hpow n, pow_succ]
      ring
    rw [hk, abs_mul, abs_of_pos (show (0 : ℝ) < 0.82 by norm_num)]
    have hpos : 0 < |doorOpenAngle f t op - doorAngleSeq f t op n| :=
      abs_pos.mpr (sub_ne_zero.mpr fun hh => hAneq n hh.symm)
    linarith
  have hup : ∀ n, doorClosedAngle f t op < doorOpenAngle f t op →
      doorAngleSeq f t op n < doorAngleSeq f t op (n + 1) ∧
      doorAngleSeq f t op n < doorOpenAngle f t op := by
    intro n hlt
    have hp : (0 : ℝ) < 0.82 ^ n := pow_pos (by norm_num) n
    have h1 : 0 < doorOpenAngle f t op - doorAngleSeq f t op n := by
      rw [hpow n]
      nlinarith
    have h2 := hrec n
    exact ⟨by linarith, by linarith⟩
  have hdown : ∀ n, doorOpenAngle f t op < doorClosedAngle f t op →
      doorAngleSeq f t op (n + 1) < doorAngleSeq f t op n ∧
      doorOpenAngle f t op < doorAngleSeq f t op n := by
    intro n hlt
    have hp : (0 : ℝ) < 0.82 ^ n := pow_pos (by norm_num) n
    have h1 : doorOpenAngle f t op - doorAngleSeq f t op n < 0 := by
      rw [hpow n]
      nlinarith
    have h2 := hrec n
    exact ⟨by linarith, by linarith⟩
  have hconv : ∀ e : ℝ, 0 < e → ∃ N, ∀ n, N ≤ n →
      |doorOpenAngle f t op - doorAngleSeq f t op n| < e := by
    intro e he
    have habs : 0 < |doorOpenAngle f t op - doorClosedAngle f t op| := abs_pos.mpr hs0
    obtain ⟨N, hN⟩ := exists_pow_lt_of_lt_one (div_pos he habs)
      (show (0.82 : ℝ) < 1 by norm_num)
    refine ⟨N, fun n hn => ?_⟩
    have hb : |doorOpenAngle f t op - doorAngleSeq f t op n|
        = 0.82 ^ n * |doorOpenAngle f t op - doorClosedAngle f t op| := by
      rw [hpow n, abs_mul, abs_pow,
        abs_of_pos (show (0 : ℝ) < 0.82 by norm_num)]
    rw [hb]
    have hmono : (0.82 : ℝ) ^ n ≤ 0.82 ^ N :=
      pow_le_pow_of_le_one (by norm_num) (by norm_num) hn
    calc (0.82 : ℝ) ^ n * |doorOpenAngle f t op - doorClosedAngle f t op|
        ≤ 0.82 ^ N * |doorOpenAngle f t op - doorClosedAngle f t op| :=
          mul_le_mul_of_nonneg_right hmono habs.le
      _ < (e / |doorOpenAngle f t op - doorClosedAngle f t op|)
            * |doorOpenAngle f t op - doorClosedAngle f t op| :=
          mul_lt_mul_of_pos_right hN habs
      _ = e := div_mul_cancel₀ e (ne_of_gt habs)
  exact ⟨hC, htar, htarN, hrec, hpow, hdec, hup, hdown, hAneq, hconv⟩

end

end ThreeBP
